import Mathlib

/-!
Shallow embedding of `pkg/provider/aad/aad.go` (Azure AD SAML authentication
driver of saml2aws).  Go strings are modelled as `List Char` (the inputs of
interest are ASCII, so byte offsets and rune offsets coincide); Go's partial
string-slicing operations return `Option`, and a runtime panic is a distinct
outcome (`GoRes.crash`).  HTTP traffic is abstracted by explicit oracle
arguments; everything else is translated from the Go source.
-/

set_option maxRecDepth 4000

/-- Go strings, modelled as lists of characters. -/
abbrev Str := List Char

/-- The double-quote character. -/
def dquote : Char := Char.ofNat 34

/-- The single-quote character. -/
def squote : Char := Char.ofNat 39

/-- The opening-brace character. -/
def lbrace : Char := Char.ofNat 123

/-- The closing-brace character. -/
def rbrace : Char := Char.ofNat 125

/-- `hasPref s pat` models Go `strings.HasPrefix(s, pat)`. -/
def hasPref : Str → Str → Bool
  | _, [] => true
  | [], _ :: _ => false
  | c :: cs, p :: ps => c == p && hasPref cs ps

/-- First index (if any) at which `pat` occurs in `s`. -/
def idxOf (pat : Str) : Str → Option Nat
  | [] => if hasPref [] pat then some 0 else none
  | c :: cs =>
    if hasPref (c :: cs) pat then some 0
    else (idxOf pat cs).map (fun n => n + 1)

/-- Go `strings.Index(s, pat)`: first occurrence index, `-1` when absent. -/
def goIndex (s pat : Str) : Int :=
  match idxOf pat s with
  | some i => (i : Int)
  | none => -1

/-- Go `strings.Contains(s, pat)`. -/
def containsS (s pat : Str) : Bool := (idxOf pat s).isSome

/-- Go `strings.Split(s, string(c))` for a one-character separator. -/
def splitCh (c : Char) : Str → List Str
  | [] => [[]]
  | x :: xs =>
    if x == c then [] :: splitCh c xs
    else
      match splitCh c xs with
      | [] => [[x]]
      | g :: gs => (x :: g) :: gs

/-- Go slice expression `s[lo:hi]`: `none` models the out-of-range panic. -/
def goSlice (s : Str) (lo hi : Int) : Option Str :=
  if 0 ≤ lo ∧ lo ≤ hi ∧ hi ≤ (s.length : Int) then
    some ((s.take hi.toNat).drop lo.toNat)
  else none

/-- Go slice expression `s[lo:]`. -/
def goSliceFrom (s : Str) (lo : Int) : Option Str :=
  goSlice s lo (s.length : Int)

/-- Outcome of a Go computation: runtime panic, error return, or value. -/
inductive GoRes (α : Type) where
  | crash
  | fail
  | ok (a : α)
deriving DecidableEq

/-! ### JSON values, modelling Go `encoding/json` decoding

`json.Decoder.Decode` reads the first complete JSON value of the stream and
ignores any trailing bytes; decoding into a struct ignores unknown fields and
reports an error on type mismatches.  The grammar below (null, booleans,
lenient number tokens, strings with the standard escapes, arrays, objects)
models the decoder on the inputs this driver meets. -/

/-- A JSON value. -/
inductive Jval where
  | jnull
  | jbool (b : Bool)
  | jnum (tok : Str)
  | jstr (s : Str)
  | jarr (elems : List Jval)
  | jobj (fields : List (Str × Jval))

/-- Skip JSON whitespace. -/
def skipWs : Str → Str
  | [] => []
  | c :: cs =>
    if c == ' ' || c == '\t' || c == '\n' || c == '\r' then skipWs cs
    else c :: cs

/-- Value of a hexadecimal digit. -/
def hexVal (c : Char) : Option Nat :=
  if c.isDigit then some (c.toNat - 48)
  else if 'a' ≤ c ∧ c ≤ 'f' then some (c.toNat - 87)
  else if 'A' ≤ c ∧ c ≤ 'F' then some (c.toNat - 55)
  else none

/-- Parse the remainder of a JSON string literal (opening quote consumed):
returns the decoded characters and the rest of the input. -/
def parseStrLit : Str → Option (Str × Str)
  | [] => none
  | c :: cs =>
    if c == dquote then some ([], cs)
    else if c == '\\' then
      match cs with
      | [] => none
      | e :: cs2 =>
        if e == dquote then (parseStrLit cs2).map (fun p => (dquote :: p.1, p.2))
        else if e == '\\' then (parseStrLit cs2).map (fun p => ('\\' :: p.1, p.2))
        else if e == '/' then (parseStrLit cs2).map (fun p => ('/' :: p.1, p.2))
        else if e == 'n' then (parseStrLit cs2).map (fun p => ('\n' :: p.1, p.2))
        else if e == 't' then (parseStrLit cs2).map (fun p => ('\t' :: p.1, p.2))
        else if e == 'r' then (parseStrLit cs2).map (fun p => ('\r' :: p.1, p.2))
        else if e == 'b' then (parseStrLit cs2).map (fun p => (Char.ofNat 8 :: p.1, p.2))
        else if e == 'f' then (parseStrLit cs2).map (fun p => (Char.ofNat 12 :: p.1, p.2))
        else if e == 'u' then
          match cs2 with
          | h1 :: h2 :: h3 :: h4 :: cs3 =>
            match hexVal h1, hexVal h2, hexVal h3, hexVal h4 with
            | some a, some b, some c3, some d =>
              (parseStrLit cs3).map
                (fun p => (Char.ofNat (((a * 16 + b) * 16 + c3) * 16 + d) :: p.1, p.2))
            | _, _, _, _ => none
          | _ => none
        else none
    else (parseStrLit cs).map (fun p => (c :: p.1, p.2))

/-- Characters that may occur in a JSON number token. -/
def numCh (c : Char) : Bool :=
  c.isDigit || c == '.' || c == 'e' || c == 'E' || c == '+' || c == '-'

/-- Longest number-token run at the head of the input. -/
def spanNum : Str → (Str × Str)
  | [] => ([], [])
  | c :: cs =>
    if numCh c then
      let p := spanNum cs
      (c :: p.1, p.2)
    else ([], c :: cs)

/-- Parse a JSON number token (lenient: a sign-or-digit start followed by a
run of number characters containing at least one digit). -/
def parseNum (s : Str) : Option (Str × Str) :=
  match s with
  | [] => none
  | c :: _ =>
    if c == '-' || c.isDigit then
      let p := spanNum s
      if p.1.any (fun d => d.isDigit) then some p else none
    else none

/-- `expectL pat s`: consume the literal `pat` at the head of `s`. -/
def expectL (pat s : Str) : Option Str :=
  if hasPref s pat then some (s.drop pat.length) else none

/-- Parser mode: a full value, the elements of an array (after `[`), or the
fields of an object (after the opening brace, nonempty case). -/
inductive PMode where
  | val
  | arrElems
  | objFields

/-- Parser result for each mode. -/
inductive PRes where
  | rv (v : Jval)
  | ra (vs : List Jval)
  | ro (fs : List (Str × Jval))

/-- Fuel-indexed recursive-descent JSON parser.  The fuel is only an upper
bound on recursion depth; `parseValue` supplies enough for any input. -/
def parseJ (fuel : Nat) (mode : PMode) (s : Str) : Option (PRes × Str) :=
  match fuel with
  | 0 => none
  | Nat.succ fl =>
    match mode with
    | PMode.val =>
      match skipWs s with
      | [] => none
      | c :: cs =>
        if c == 'n' then
          (expectL (("ull").data) cs).map (fun r => (PRes.rv Jval.jnull, r))
        else if c == 't' then
          (expectL (("rue").data) cs).map (fun r => (PRes.rv (Jval.jbool true), r))
        else if c == 'f' then
          (expectL (("alse").data) cs).map (fun r => (PRes.rv (Jval.jbool false), r))
        else if c == dquote then
          (parseStrLit cs).map (fun p => (PRes.rv (Jval.jstr p.1), p.2))
        else if c == '[' then
          match skipWs cs with
          | [] => none
          | d :: rest =>
            if d == ']' then some (PRes.rv (Jval.jarr []), rest)
            else
              match parseJ fl PMode.arrElems (d :: rest) with
              | some (PRes.ra vs, r2) => some (PRes.rv (Jval.jarr vs), r2)
              | _ => none
        else if c == lbrace then
          match skipWs cs with
          | [] => none
          | d :: rest =>
            if d == rbrace then some (PRes.rv (Jval.jobj []), rest)
            else
              match parseJ fl PMode.objFields (d :: rest) with
              | some (PRes.ro fs, r2) => some (PRes.rv (Jval.jobj fs), r2)
              | _ => none
        else
          match parseNum (c :: cs) with
          | some p => some (PRes.rv (Jval.jnum p.1), p.2)
          | none => none
    | PMode.arrElems =>
      match parseJ fl PMode.val s with
      | some (PRes.rv v, r) =>
        (match skipWs r with
         | [] => none
         | c :: r2 =>
           if c == ',' then
             match parseJ fl PMode.arrElems r2 with
             | some (PRes.ra vs, r3) => some (PRes.ra (v :: vs), r3)
             | _ => none
           else if c == ']' then some (PRes.ra [v], r2)
           else none)
      | _ => none
    | PMode.objFields =>
      match skipWs s with
      | [] => none
      | c :: cs =>
        if c == dquote then
          match parseStrLit cs with
          | none => none
          | some (k, r) =>
            match skipWs r with
            | [] => none
            | c2 :: r2 =>
              if c2 == ':' then
                match parseJ fl PMode.val r2 with
                | some (PRes.rv v, r3) =>
                  (match skipWs r3 with
                   | [] => none
                   | c3 :: r4 =>
                     if c3 == ',' then
                       match parseJ fl PMode.objFields r4 with
                       | some (PRes.ro fs, r5) => some (PRes.ro ((k, v) :: fs), r5)
                       | _ => none
                     else if c3 == rbrace then some (PRes.ro [(k, v)], r4)
                     else none)
                | _ => none
              else none
        else none

/-- Parse the first complete JSON value of the input, returning it together
with the unconsumed rest (trailing bytes are not an error, as with Go's
`json.Decoder.Decode`). -/
def parseValue (s : Str) : Option (Jval × Str) :=
  match parseJ (2 * s.length + 8) PMode.val s with
  | some (PRes.rv v, r) => some (v, r)
  | _ => none

/-! ### Data model: `ConvergedResponse` and `userProof`

The Go structs of `aad.go`; the modelled subset covers every field the
verified handlers read.  Unmodelled numeric/metadata fields of the Go struct
(`oPerAuthPollingInterval`, `hpgact`, `hpgid`, `apiCanary`, …) are treated as
unknown JSON keys and ignored by the decoder model. -/

/-- One way for a user to prove their identity (Go struct `userProof`). -/
structure userProof where
  authMethodID : Str
  data : Str
  display : Str
  isDefault : Bool
deriving DecidableEq

/-- The embedded `$Config` blob (Go struct `ConvergedResponse`), modelled
subset. -/
structure ConvergedResponse where
  urlGetCredentialType : Str := []
  arrUserProofs : List userProof := []
  urlSkipMfaRegistration : Str := []
  urlBeginAuth : Str := []
  urlEndAuth : Str := []
  urlPost : Str := []
  sErrorCode : Str := []
  sErrTxt : Str := []
  sPOSTUsername : Str := []
  sFT : Str := []
  sFTName : Str := []
  sCtx : Str := []
  sessionId : Str := []
  canary : Str := []
deriving DecidableEq

/-- Last binding of a key in a JSON object (Go keeps the last duplicate). -/
def lookupLast (fields : List (Str × Jval)) (k : Str) : Option Jval :=
  match fields with
  | [] => none
  | (k2, v) :: rest =>
    match lookupLast rest k with
    | some v2 => some v2
    | none => if k2 == k then some v else none

/-- Decode a string-typed struct field: missing or null gives the zero value,
a JSON string gives its contents, any other type is a decode error. -/
def getStrF (fields : List (Str × Jval)) (k : Str) : Except Unit Str :=
  match lookupLast fields k with
  | none => Except.ok []
  | some Jval.jnull => Except.ok []
  | some (Jval.jstr v) => Except.ok v
  | some _ => Except.error ()

/-- Decode a bool-typed struct field. -/
def getBoolF (fields : List (Str × Jval)) (k : Str) : Except Unit Bool :=
  match lookupLast fields k with
  | none => Except.ok false
  | some Jval.jnull => Except.ok false
  | some (Jval.jbool b) => Except.ok b
  | some _ => Except.error ()

/-- Decode one element of `arrUserProofs`. -/
def decodeProofJ (j : Jval) : Except Unit userProof :=
  match j with
  | Jval.jnull =>
    Except.ok { authMethodID := [], data := [], display := [], isDefault := false }
  | Jval.jobj fs => do
    let a ← getStrF fs (("authMethodId").data)
    let d ← getStrF fs (("data").data)
    let di ← getStrF fs (("display").data)
    let b ← getBoolF fs (("isDefault").data)
    Except.ok { authMethodID := a, data := d, display := di, isDefault := b }
  | _ => Except.error ()

/-- Decode the `arrUserProofs` field. -/
def getProofsF (fields : List (Str × Jval)) : Except Unit (List userProof) :=
  match lookupLast fields (("arrUserProofs").data) with
  | none => Except.ok []
  | some Jval.jnull => Except.ok []
  | some (Jval.jarr xs) => xs.mapM decodeProofJ
  | some _ => Except.error ()

/-- Decode a JSON value into `*ConvergedResponse` (Go decodes through a
pointer: `null` yields a nil pointer, modelled as `none`; a non-object,
non-null value is a decode error). -/
def decodeConvergedJ (j : Jval) : Except Unit (Option ConvergedResponse) :=
  match j with
  | Jval.jnull => Except.ok none
  | Jval.jobj fs => do
    let proofs ← getProofsF fs
    let uGct ← getStrF fs (("urlGetCredentialType").data)
    let uSkip ← getStrF fs (("urlSkipMfaRegistration").data)
    let uBegin ← getStrF fs (("urlBeginAuth").data)
    let uEnd ← getStrF fs (("urlEndAuth").data)
    let uPost ← getStrF fs (("urlPost").data)
    let eCode ← getStrF fs (("sErrorCode").data)
    let eTxt ← getStrF fs (("sErrTxt").data)
    let pUser ← getStrF fs (("sPOST_Username").data)
    let ft ← getStrF fs (("sFT").data)
    let ftName ← getStrF fs (("sFTName").data)
    let ctx ← getStrF fs (("sCtx").data)
    let sid ← getStrF fs (("sessionId").data)
    let can ← getStrF fs (("canary").data)
    Except.ok (some
      { urlGetCredentialType := uGct
        arrUserProofs := proofs
        urlSkipMfaRegistration := uSkip
        urlBeginAuth := uBegin
        urlEndAuth := uEnd
        urlPost := uPost
        sErrorCode := eCode
        sErrTxt := eTxt
        sPOSTUsername := pUser
        sFT := ft
        sFTName := ftName
        sCtx := ctx
        sessionId := sid
        canary := can })
  | _ => Except.error ()

/-- Decode the first JSON value of `s` into `*ConvergedResponse`. -/
def jsonDecodeConverged (s : Str) : GoRes (Option ConvergedResponse) :=
  match parseValue s with
  | none => GoRes.fail
  | some (j, _) =>
    match decodeConvergedJ j with
    | Except.error _ => GoRes.fail
    | Except.ok c => GoRes.ok c

/-- Go `unmarshalEmbeddedJson` (aad.go:676): take the byte offset of the
first `$Config=` marker plus 8 — `strings.Index` yields `-1` when the marker
is absent, so the start offset is then 7 — slice the body from there (a Go
panic when the offset exceeds the length) and JSON-decode the suffix. -/
def unmarshalEmbeddedJson (body : Str) : GoRes (Option ConvergedResponse) :=
  let startIndex : Int := goIndex body (("$Config=").data) + 8
  match goSliceFrom body startIndex with
  | none => GoRes.crash
  | some tail => jsonDecodeConverged tail

/-! ### Page classification (the `switch` of `Authenticate`, aad.go:183) -/

/-- The page kinds the orchestrator distinguishes. -/
inductive PageKind where
  | signin
  | proofup
  | kmsi
  | tfa
  | samlreq
  | hiddenform
  | unknown
deriving DecidableEq

/-- Go `isHiddenForm` (aad.go:698). -/
def isHiddenForm (b : Str) : Bool :=
  hasPref b (("<html><head><title>Working...</title>").data) &&
    containsS b (("name=\"hiddenform\"").data)

/-- The body classification performed by the `switch` statement of
`Authenticate` (aad.go:183-216), first match wins. -/
def classify (b : Str) : PageKind :=
  if containsS b (("ConvergedSignIn").data) then PageKind.signin
  else if containsS b (("ConvergedProofUpRedirect").data) then PageKind.proofup
  else if containsS b (("KmsiInterrupt").data) then PageKind.kmsi
  else if containsS b (("ConvergedTFA").data) then PageKind.tfa
  else if containsS b (("SAMLRequest").data) then PageKind.samlreq
  else if isHiddenForm b then PageKind.hiddenform
  else PageKind.unknown

/-- The classification as the spec words it: the ordered first-match-wins
list of §4.E.  (Spec-side definition, for comparison with `classify`.) -/
def classifySpecOrder (b : Str) : PageKind :=
  let rules : List (Bool × PageKind) :=
    [(containsS b (("ConvergedSignIn").data), PageKind.signin),
     (containsS b (("ConvergedProofUpRedirect").data), PageKind.proofup),
     (containsS b (("KmsiInterrupt").data), PageKind.kmsi),
     (containsS b (("ConvergedTFA").data), PageKind.tfa),
     (containsS b (("SAMLRequest").data), PageKind.samlreq),
     (isHiddenForm b, PageKind.hiddenform)]
  match rules.find? (fun r => r.1) with
  | some r => r.2
  | none => PageKind.unknown

/-! ### URL resolution and issued requests -/

/-- Go `fullUrl` (aad.go:690): a fragment starting with `/` is prefixed with
`scheme://host` of the current response's request URL; anything else is used
as-is. -/
def fullUrl (scheme host frag : Str) : Str :=
  if hasPref frag (("/").data) then
    scheme ++ (("://").data) ++ host ++ frag
  else frag

/-- An HTTP request issued by a handler: target URL and form fields in the
order the source sets them. -/
structure IssuedPost where
  url : Str
  form : List (Str × Str)
deriving DecidableEq

/-- Login inputs (Go `creds.LoginDetails`, modelled subset). -/
structure LoginDetails where
  username : Str
  password : Str
  mfaToken : Str
deriving DecidableEq

/-- Errors surfaced by the modelled handlers. -/
inductive AuthErr where
  | loginError (code : Str)
  | transport
  | unmarshal
  | noSamlRequestUrl
  | noFormAction
deriving DecidableEq

/-! ### Primary-auth handler (`processAuthentication`, aad.go:346) -/

/-- Go `processAuthentication` up to the login POST it issues: the
`sErrorCode` gate (`""` and `"50058"` pass, anything else is
`login error <code>` before any request), then the urlencoded password POST
to `loginUrl`.  The returned `IssuedPost` is the request handed to
`client.Do`. -/
def processAuthentication (loginUrl : Str) (ld : LoginDetails)
    (cfg : ConvergedResponse) : Except AuthErr IssuedPost :=
  if cfg.sErrorCode ≠ [] ∧ cfg.sErrorCode ≠ (("50058").data) then
    Except.error (AuthErr.loginError cfg.sErrorCode)
  else
    Except.ok
      { url := loginUrl
        form :=
          [((("canary").data), cfg.canary),
           ((("hpgrequestid").data), cfg.sessionId),
           (cfg.sFTName, cfg.sFT),
           ((("ctx").data), cfg.sCtx),
           ((("login").data), ld.username),
           ((("loginfmt").data), ld.username),
           ((("passwd").data), ld.password)] }

/-! ### KMSI handler (`processKmsiInterrupt`, aad.go:381)

The session's redirect-following switch is the explicit `Bool` state
(`true` = following enabled).  `doResult` is the transport outcome of the
POST (the HTTP oracle).  The result records the handler outcome, the final
state of the switch, and the POST that was issued (if any). -/

/-- Result of the KMSI handler model. -/
structure KmsiOut where
  result : GoRes Unit
  followRedirect : Bool
  issued : Option IssuedPost
deriving DecidableEq

/-- Go `processKmsiInterrupt`: unmarshal the config (errors and panics leave
the switch untouched), build the KMSI form POST to the resolved `urlPost`,
call `DisableFollowRedirect`, issue the POST, and call
`EnableFollowRedirect` only after a successful `Do` — the error return
between the two leaves the switch disabled. -/
def processKmsiInterrupt (body : Str) (scheme host : Str)
    (doResult : Except Unit Unit) (flag0 : Bool) : KmsiOut :=
  match unmarshalEmbeddedJson body with
  | GoRes.crash => { result := GoRes.crash, followRedirect := flag0, issued := none }
  | GoRes.fail => { result := GoRes.fail, followRedirect := flag0, issued := none }
  | GoRes.ok none => { result := GoRes.crash, followRedirect := flag0, issued := none }
  | GoRes.ok (some cfg) =>
    let post : IssuedPost :=
      { url := fullUrl scheme host cfg.urlPost
        form :=
          [(cfg.sFTName, cfg.sFT),
           ((("ctx").data), cfg.sCtx),
           ((("LoginOptions").data), (("1").data))] }
    match doResult with
    | Except.error _ =>
      { result := GoRes.fail, followRedirect := false, issued := some post }
    | Except.ok _ =>
      { result := GoRes.ok (), followRedirect := true, issued := some post }

/-! ### MFA finalise and hidden-form re-POST (`processMfaAuth` aad.go:597,
`reProcessForm` aad.go:702) -/

/-- The triple threaded through the MFA conversation. -/
structure MfaTriple where
  ctx : Str
  flowToken : Str
  sessionId : Str
deriving DecidableEq

/-- Go `mfaResponse`, modelled subset. -/
structure mfaResponse where
  success : Bool
  authMethodID : Str
  errCode : Int
  retry : Bool
  flowToken : Str
  ctx : Str
  sessionId : Str
  entropy : Int
deriving DecidableEq

/-- Go `mfaRequest`, modelled subset. -/
structure mfaRequest where
  authMethodID : Str
  method : Str
  ctx : Str
  flowToken : Str
  sessionId : Str
  additionalAuthData : Str
deriving DecidableEq

/-- Go `processMfaAuth` up to the POST it issues: note the target URL is
`convergedResponse.URLPost` verbatim — `fullUrl` is not applied here. -/
def processMfaAuth (mfaResp : mfaResponse) (cfg : ConvergedResponse) : IssuedPost :=
  { url := cfg.urlPost
    form :=
      [(cfg.sFTName, mfaResp.flowToken),
       ((("request").data), mfaResp.ctx),
       ((("login").data), cfg.sPOSTUsername)] }

/-- Go `reProcessForm` up to the POST it issues: the form values and submit
URL come from `reSubmitFormData` (goquery HTML parsing, abstracted here as
inputs); an empty submit URL is the `NoFormAction` failure, and the POST
target is `formSubmitUrl` verbatim — `fullUrl` is not applied here. -/
def reProcessForm (formValues : List (Str × Str)) (formSubmitUrl : Str) :
    Except AuthErr IssuedPost :=
  if formSubmitUrl = [] then Except.error AuthErr.noFormAction
  else Except.ok { url := formSubmitUrl, form := formValues }

/-- The login-POST target computed by `processConvergedSignIn` (aad.go:233):
`fullUrl` applied to `urlPost`. -/
def signinLoginRequestUrl (scheme host : Str) (cfg : ConvergedResponse) : Str :=
  fullUrl scheme host cfg.urlPost

/-- The ADFS form-POST target computed by `processADFSAuthentication`
(aad.go:331): `fullUrl` applied to the form action. -/
def adfsPostUrl (scheme host formSubmitUrl : Str) : Str :=
  fullUrl scheme host formSubmitUrl

/-! ### MFA method selection (`processMfaBeginAuth`, aad.go:508) -/

/-- The Go selection loop: starting from `mfas[0]`, scan for the first
element satisfying `pick` and break there; keep the start value otherwise. -/
def selectLoop (pick : userProof → Bool) (init : userProof) :
    List userProof → userProof
  | [] => init
  | v :: rest => if pick v then v else selectLoop pick init rest

/-- The method selection of `processMfaBeginAuth` (aad.go:514-530): `mfa :=
mfas[0]`; with preferred method `"Auto"` scan for the first default proof,
otherwise scan for the first exact `authMethodId` match.  `none` corresponds
to the empty list, on which the Go code would panic at `mfas[0]` (its caller
`processMfa` guards against this, aad.go:443). -/
def selectMfaMethod (mfas : List userProof) (preferred : Str) : Option userProof :=
  match mfas with
  | [] => none
  | m0 :: _ =>
    if preferred = (("Auto").data) then
      some (selectLoop (fun v => v.isDefault) m0 mfas)
    else
      some (selectLoop (fun v => v.authMethodID == preferred) m0 mfas)

/-! ### MFA poll loop (`processMfa`, aad.go:452-494)

The EndAuth HTTP exchanges are abstracted by the list `rs` of successive
server responses; `promptCode` abstracts `prompter.StringRequired`. -/

/-- The triple carried by an EndAuth request. -/
def reqTriple (r : mfaRequest) : MfaTriple :=
  { ctx := r.ctx, flowToken := r.flowToken, sessionId := r.sessionId }

/-- The triple carried by an MFA response. -/
def respTriple (r : mfaResponse) : MfaTriple :=
  { ctx := r.ctx, flowToken := r.flowToken, sessionId := r.sessionId }

/-- The EndAuth request built at the top of each poll iteration
(aad.go:453-466) from the most recent response `prev`. -/
def buildEndAuthReq (prev : mfaResponse) (mfaToken promptCode : Str) : mfaRequest :=
  let base : mfaRequest :=
    { authMethodID := prev.authMethodID
      method := (("EndAuth").data)
      ctx := prev.ctx
      flowToken := prev.flowToken
      sessionId := prev.sessionId
      additionalAuthData := [] }
  if prev.authMethodID = (("PhoneAppOTP").data) ∨
      prev.authMethodID = (("OneWaySMS").data) then
    { base with
        additionalAuthData := if mfaToken ≠ [] then mfaToken else promptCode }
  else base

/-- The sequence of EndAuth requests the poll loop sends, given the BeginAuth
(or latest EndAuth) response `cur` and the list `rs` of EndAuth responses the
server will return.  Iteration `i` sends a request built from the current
response, receives `rs[i]`, and continues only while `errCode = 0`,
`success = false` and `retry = true` (aad.go:480-489). -/
def pollRequests (cur : mfaResponse) (rs : List mfaResponse)
    (mfaToken promptCode : Str) : List mfaRequest :=
  buildEndAuthReq cur mfaToken promptCode ::
    match rs with
    | [] => []
    | r :: rest =>
      if r.errCode ≠ 0 then []
      else if r.success then []
      else if r.retry = false then []
      else pollRequests r rest mfaToken promptCode

/-! ### SAMLRequest relay (`processSAMLRequest`, aad.go:622) -/

/-- Extraction step for one `;`-separated segment (aad.go:630-637): when the
segment mentions `SAMLRequest`, find the first `https://`, slice the segment
from there (a panic when absent, since the start index is then `-1`), look
for the first `'` — only if there is none, for the first `"` — and slice
between (a panic when neither quote occurs, since the end index is `-1`). -/
def extractSamlSegment (v : Str) : GoRes Str :=
  let startURLPos : Int := goIndex v (("https://").data)
  match goSliceFrom v startURLPos with
  | none => GoRes.crash
  | some tail =>
    let e1 : Int := goIndex tail [squote]
    let endURLPos : Int := if e1 = -1 then goIndex tail [dquote] else e1
    match goSlice v startURLPos (startURLPos + endURLPos) with
    | none => GoRes.crash
    | some u => GoRes.ok u

/-- The loop over segments: `samlRequestUrl` starts empty and is overwritten
by every segment containing `SAMLRequest`. -/
def samlUrlLoop : List Str → Str → GoRes Str
  | [], acc => GoRes.ok acc
  | v :: rest, acc =>
    if containsS v (("SAMLRequest").data) then
      match extractSamlSegment v with
      | GoRes.crash => GoRes.crash
      | GoRes.fail => GoRes.fail
      | GoRes.ok u => samlUrlLoop rest u
    else samlUrlLoop rest acc

/-- Go `processSAMLRequest` up to the GET it issues: split the body on `;`,
run the extraction loop, and fail with `NoSamlRequestUrl` when the resulting
URL is empty; otherwise the result is the URL passed to `client.Get`. -/
def processSAMLRequest (body : Str) : GoRes Str :=
  match samlUrlLoop (splitCh ';' body) [] with
  | GoRes.crash => GoRes.crash
  | GoRes.fail => GoRes.fail
  | GoRes.ok u => if u = [] then GoRes.fail else GoRes.ok u

/-- The extraction rule as the spec words it (§4.K): scan from the first
`https://` to the first `'` **or** `"`, whichever comes first — the minimum
of the two indices.  (Spec-side definition, for comparison with
`extractSamlSegment`.) -/
def extractSamlSegmentSpecMin (v : Str) : Option Str :=
  match idxOf (("https://").data) v with
  | none => none
  | some start =>
    let tail := v.drop start
    match idxOf [squote] tail, idxOf [dquote] tail with
    | some i, some j => some (tail.take (min i j))
    | some i, none => some (tail.take i)
    | none, some j => some (tail.take j)
    | none, none => none

/-! ### TFA handler and the orchestrator loop (`processConvergedTFA`
aad.go:411, `Authenticate` aad.go:176)

Handlers whose internals are not needed by the verified claims (sign-in,
proof-up, KMSI, the MFA driver's HTTP turns, the hidden-form POST) are
abstracted by the oracle `σ : Nat → HandlerRes`: its `k`-th value is the
outcome of the `k`-th HTTP-performing handler turn (a next response body or
a handler error).  `harvest` abstracts `getSamlAssertion` (goquery HTML
parsing). -/

/-- Abstract outcome of one HTTP-performing handler turn. -/
inductive HandlerRes where
  | next (b : Str)
  | failed

/-- A terminal outcome of the orchestrator loop. -/
inductive Outcome where
  | assertion (a : Str)
  | fatal
  | unknown
  | panicked
deriving DecidableEq

/-- One step of the orchestrator: either a terminal outcome or the next
classification state (oracle counter and response body). -/
inductive StepRes where
  | halt (o : Outcome)
  | again (k : Nat) (b : Str)

/-- One iteration of the `AuthProcessor` loop: classify the buffered body and
run the selected handler.  The TFA handler follows aad.go:411-436: unmarshal
the config, prefer the skip-MFA GET, else the MFA driver when proofs exist,
else return the unchanged response — no HTTP turn, so the loop re-enters with
the same body.  The `unknown` branch follows aad.go:206-215. -/
def authStep (σ : Nat → HandlerRes) (harvest : Str → Str)
    (k : Nat) (b : Str) : StepRes :=
  let consume : StepRes :=
    match σ k with
    | HandlerRes.next b2 => StepRes.again (k + 1) b2
    | HandlerRes.failed => StepRes.halt Outcome.fatal
  match classify b with
  | PageKind.signin => consume
  | PageKind.proofup => consume
  | PageKind.kmsi => consume
  | PageKind.tfa =>
    match unmarshalEmbeddedJson b with
    | GoRes.crash => StepRes.halt Outcome.panicked
    | GoRes.fail => StepRes.halt Outcome.fatal
    | GoRes.ok none => StepRes.halt Outcome.panicked
    | GoRes.ok (some cfg) =>
      if cfg.urlSkipMfaRegistration ≠ [] then consume
      else if cfg.arrUserProofs ≠ [] then consume
      else StepRes.again k b
  | PageKind.samlreq =>
    match processSAMLRequest b with
    | GoRes.crash => StepRes.halt Outcome.panicked
    | GoRes.fail => StepRes.halt Outcome.fatal
    | GoRes.ok _ => consume
  | PageKind.hiddenform =>
    if harvest b ≠ [] then StepRes.halt (Outcome.assertion (harvest b))
    else consume
  | PageKind.unknown =>
    if containsS b (("$Config").data) then
      match unmarshalEmbeddedJson b with
      | GoRes.crash => StepRes.halt Outcome.panicked
      | GoRes.fail => StepRes.halt Outcome.fatal
      | GoRes.ok none => StepRes.halt Outcome.panicked
      | GoRes.ok (some _) => StepRes.halt Outcome.unknown
    else StepRes.halt Outcome.unknown

/-- Run the orchestrator loop for at most `fuel` iterations; `none` means the
loop is still running. -/
def loopRun (σ : Nat → HandlerRes) (harvest : Str → Str) :
    Nat → Nat → Str → Option Outcome
  | 0, _, _ => none
  | Nat.succ fl, k, b =>
    match authStep σ harvest k b with
    | StepRes.halt o => some o
    | StepRes.again k2 b2 => loopRun σ harvest fl k2 b2

/-- The orchestrator loop terminates on body `b` under oracle `σ` and
harvester `harvest`. -/
def LoopTerminates (σ : Nat → HandlerRes) (harvest : Str → Str) (b : Str) : Prop :=
  ∃ n o, loopRun σ harvest n 0 b = some o

/-! ### Concrete inputs used by the verification -/

/-- A scheme for URL resolution examples. -/
def httpsS : Str := ("https").data

/-- A host for URL resolution examples. -/
def hostS : Str := ("h").data

/-- A KMSI interrupt page with a well-formed embedded config. -/
def kmsiBody : Str :=
  ("KmsiInterrupt $Config=\x7b\"sFTName\":\"flowToken\",\"sFT\":\"t1\",\"sCtx\":\"c1\",\"urlPost\":\"/kmsi\"\x7d;").data

/-- A ConvergedTFA page whose config has no skip-MFA URL and no user proofs. -/
def tfaLoopBody : Str :=
  ("ConvergedTFA $Config=\x7b\"arrUserProofs\":[],\"urlSkipMfaRegistration\":\"\"\x7d;").data

/-- The decoded config of `tfaLoopBody`: every field at its zero value. -/
def tfaLoopCfg : ConvergedResponse := {}

/-- An oracle under which every HTTP-performing handler turn fails. -/
def oracleFail : Nat → HandlerRes := fun _ => HandlerRes.failed

/-- A harvester that never finds an assertion. -/
def harvestNone : Str → Str := fun _ => []

/-- A body without the `$Config=` marker whose suffix from byte 7 is the
JSON value `\x7b\x7d`. -/
def c3NoMarkerBody : Str := ("abcdefg\x7b\x7d").data

/-- A body whose `$Config=` marker is followed by unparseable JSON. -/
def c3BadJsonBody : Str := ("$Config=%%%").data

/-- A SAMLRequest segment in which a `"` occurs before the first `'` after
`https://`. -/
def c4Body : Str := ("SAMLRequest https://h/p").data ++ [dquote, 'x', squote]

/-- What the code extracts from `c4Body`: up to the `'`, dragging the `"`
along. -/
def c4CodeUrl : Str := ("https://h/p").data ++ [dquote, 'x']

/-- What the minimum-of-the-two-indices rule extracts from `c4Body`. -/
def c4MinUrl : Str := ("https://h/p").data

/-- A body with a `SAMLRequest` segment containing no `https://`. -/
def c10NoHttps : Str := ("xxSAMLRequestxx").data

/-- A body with a `SAMLRequest` segment whose `https://` is followed by
neither a `'` nor a `"`. -/
def c10NoQuote : Str := ("SAMLRequest https://h/p").data

/-- A config carrying a fatal error code. -/
def cfgBadCode : ConvergedResponse := { sErrorCode := ("50125").data }

/-- Concrete login details. -/
def ld0 : LoginDetails :=
  { username := ("u").data, password := ("p").data, mfaToken := [] }

/-- A concrete login-POST target. -/
def loginUrl0 : Str := ("https://login").data

/-- A config whose `urlPost` is the relative fragment `/mfa`. -/
def cfgMfa : ConvergedResponse := { urlPost := ("/mfa").data }

/-- A concrete MFA response for the finalise POST. -/
def mfaResp0 : mfaResponse :=
  { success := true, authMethodID := [], errCode := 0, retry := false
    flowToken := ("f").data, ctx := ("c").data, sessionId := ("s").data
    entropy := 0 }

/-- A non-default SMS proof. -/
def proofA : userProof :=
  { authMethodID := ("OneWaySMS").data, data := [], display := []
    isDefault := false }

/-- A default push-notification proof. -/
def proofB : userProof :=
  { authMethodID := ("PhoneAppNotification").data, data := [], display := []
    isDefault := true }

/-- A two-element proof list whose default is the second element. -/
def proofs7 : List userProof := [proofA, proofB]

/-- A successful BeginAuth response. -/
def beginResp0 : mfaResponse :=
  { success := true, authMethodID := ("PhoneAppNotification").data
    errCode := 0, retry := false
    flowToken := ("f1").data, ctx := ("c1").data, sessionId := ("s1").data
    entropy := 0 }

/-- A first EndAuth response that asks the loop to keep polling. -/
def pollResp1 : mfaResponse :=
  { success := false, authMethodID := ("PhoneAppNotification").data
    errCode := 0, retry := true
    flowToken := ("f2").data, ctx := ("c2").data, sessionId := ("s2").data
    entropy := 0 }

/-- The EndAuth response list of the concrete poll run. -/
def pollRs0 : List mfaResponse := [pollResp1]

/-- The second EndAuth request of the concrete poll run. -/
def pollReq1 : mfaRequest := buildEndAuthReq pollResp1 [] []

/-- A body containing both `ConvergedTFA` and `SAMLRequest`. -/
def c9TfaBody : Str := ("ConvergedTFA and SAMLRequest").data

/-- A hidden-form body. -/
def c9HiddenBody : Str :=
  ("<html><head><title>Working...</title><form name=\"hiddenform\"></form>").data

/-! ### Helper lemmas -/

theorem hasPref_length (s pat : Str) (h : hasPref s pat = true) :
    pat.length ≤ s.length := by
  induction s generalizing pat with
  | nil =>
    cases pat with
    | nil => simp
    | cons p ps => simp [hasPref] at h
  | cons c cs ih =>
    cases pat with
    | nil => simp
    | cons p ps =>
      simp only [hasPref, Bool.and_eq_true] at h
      simpa [List.length_cons, Nat.succ_le_succ_iff] using ih ps h.2

theorem idxOf_le (pat s : Str) (i : Nat) (h : idxOf pat s = some i) :
    i + pat.length ≤ s.length := by
  induction s generalizing i with
  | nil =>
    unfold idxOf at h
    split at h
    · next hp =>
      injection h with h2
      subst h2
      simpa using hasPref_length [] pat hp
    · exact absurd h (by simp)
  | cons c cs ih =>
    unfold idxOf at h
    split at h
    · next hp =>
      injection h with h2
      subst h2
      simpa using hasPref_length (c :: cs) pat hp
    · obtain ⟨n, hn, hni⟩ := Option.map_eq_some'.mp h
      have h3 := ih n hn
      simp only [List.length_cons]
      omega

theorem goSlice_eq (s : Str) (lo hi : Nat) (h1 : lo ≤ hi) (h2 : hi ≤ s.length) :
    goSlice s (lo : Int) (hi : Int) = some ((s.drop lo).take (hi - lo)) := by
  unfold goSlice
  rw [if_pos]
  · rw [Int.toNat_natCast, Int.toNat_natCast, List.drop_take]
  · refine ⟨by exact_mod_cast Nat.zero_le lo, ?_, ?_⟩ <;> exact_mod_cast (by omega)

theorem goSliceFrom_eq (s : Str) (lo : Nat) (h : lo ≤ s.length) :
    goSliceFrom s (lo : Int) = some (s.drop lo) := by
  unfold goSliceFrom
  rw [goSlice_eq s lo s.length h (le_refl _)]
  rw [← List.length_drop lo s, List.take_length (s.drop lo)]

theorem selectLoop_eq_find (pick : userProof → Bool) (init : userProof)
    (l : List userProof) : selectLoop pick init l = (l.find? pick).getD init := by
  induction l with
  | nil => rfl
  | cons v rest ih =>
    by_cases h : pick v = true
    · simp [selectLoop, List.find?_cons_of_pos _ h, h]
    · simp [selectLoop, List.find?_cons_of_neg _ (by simpa using h), h, ih]

theorem buildEndAuthReq_triple (p : mfaResponse) (t c : Str) :
    reqTriple (buildEndAuthReq p t c) = respTriple p := by
  simp only [buildEndAuthReq, reqTriple, respTriple]
  split <;> rfl

theorem tfa_noop_step (σ : Nat → HandlerRes) (hv : Str → Str) (b : Str)
    (cfg : ConvergedResponse)
    (h1 : classify b = PageKind.tfa)
    (h2 : unmarshalEmbeddedJson b = GoRes.ok (some cfg))
    (h3 : cfg.urlSkipMfaRegistration = [])
    (h4 : cfg.arrUserProofs = []) (k : Nat) :
    authStep σ hv k b = StepRes.again k b := by
  simp [authStep, h1, h2, h3, h4]

theorem loopRun_noop (σ : Nat → HandlerRes) (hv : Str → Str) (b : Str)
    (hstep : ∀ k, authStep σ hv k b = StepRes.again k b) :
    ∀ n k, loopRun σ hv n k b = none := by
  intro n
  induction n with
  | zero => intro k; rfl
  | succ m ih => intro k; simp [loopRun, hstep k, ih]

/-! ### The claims -/

/-- C1: code bug.  The claim — the redirect-following switch is restored on
every exit path of `processKmsiInterrupt`, including the transport-error
path — is the spec's stated MUST, but on the transport-error exit the code
returns between `DisableFollowRedirect` and `EnableFollowRedirect`: with the
switch initially enabled and the POST to the resolved `url_post` failing,
the handler returns an error with the switch still disabled. -/
theorem c1_kmsi_redirect_leak :
    (processKmsiInterrupt kmsiBody httpsS hostS (Except.error ()) true).followRedirect
        = false ∧
    (processKmsiInterrupt kmsiBody httpsS hostS (Except.error ()) true).result
        = GoRes.fail ∧
    (processKmsiInterrupt kmsiBody httpsS hostS (Except.error ()) true).issued.isSome
        = true := by
  refine ⟨?_, ?_, ?_⟩ <;> rfl

/-- C5: for every converged config, the primary-auth handler issues the
password POST iff `sErrorCode` is `""` or `"50058"`; any other value fails
with `login error <code>` before any request is built. -/
theorem c5_error_code_gate :
    ∀ (u : Str) (ld : LoginDetails) (cfg : ConvergedResponse),
      ((∃ post, processAuthentication u ld cfg = Except.ok post) ↔
        (cfg.sErrorCode = [] ∨ cfg.sErrorCode = (("50058").data))) ∧
      (cfg.sErrorCode ≠ [] → cfg.sErrorCode ≠ (("50058").data) →
        processAuthentication u ld cfg =
          Except.error (AuthErr.loginError cfg.sErrorCode)) := by
  intro u ld cfg
  unfold processAuthentication
  by_cases h1 : cfg.sErrorCode = []
  · simp [h1]
  · by_cases h2 : cfg.sErrorCode = (("50058").data)
    · simp [h1, h2]
    · simp [h1, h2]

/-- C5 witness: with error code `"50125"` the handler fails with that login
error and no POST. -/
theorem c5_error_code_gate_witness :
    processAuthentication loginUrl0 ld0 cfgBadCode =
      Except.error (AuthErr.loginError ((("50125").data))) := by
  have h := (c5_error_code_gate loginUrl0 ld0 cfgBadCode).2 (by decide) (by decide)
  exact h

/-- C10: the SAMLRequest relay is not total: a body whose `SAMLRequest`
segment has no `https://`, and one whose `https://` is followed by neither
quote character, both drive the string-slicing out of range (a Go panic)
instead of returning the `NoSamlRequestUrl` error. -/
theorem c10_saml_relay_panics :
    processSAMLRequest c10NoHttps = GoRes.crash ∧
    processSAMLRequest c10NoQuote = GoRes.crash := by
  exact ⟨rfl, rfl⟩

/-- C7: MFA method selection on a non-empty proof list: `"Auto"` picks the
first default proof and falls back to the head when none is default; any
other preferred value picks the first exact `authMethodId` match and falls
back to the head. -/
theorem c7_mfa_selection :
    ∀ (m0 : userProof) (rest : List userProof) (preferred : Str),
      (preferred = (("Auto").data) →
        selectMfaMethod (m0 :: rest) preferred =
          some (((m0 :: rest).find? (fun v => v.isDefault)).getD m0)) ∧
      (preferred ≠ (("Auto").data) →
        selectMfaMethod (m0 :: rest) preferred =
          some (((m0 :: rest).find? (fun v => v.authMethodID == preferred)).getD m0)) := by
  intro m0 rest preferred
  constructor
  · intro h
    simp [selectMfaMethod, h, selectLoop_eq_find]
  · intro h
    simp [selectMfaMethod, h, selectLoop_eq_find]

/-- C7 witness: under `"Auto"`, a list whose second proof is the only
default selects that second proof. -/
theorem c7_mfa_selection_witness :
    selectMfaMethod proofs7 (("Auto").data) = some proofB := by
  have h := (c7_mfa_selection proofA [proofB] (("Auto").data)).1 rfl
  exact h.trans (by decide)

/-- C6 counterexample: the MFA-finalise POST target is `urlPost` verbatim —
with `urlPost = "/mfa"` the issued target is `"/mfa"`, while the resolution
rule would give `"https://h/mfa"`. -/
theorem c6_resolution_counterexample :
    (processMfaAuth mfaResp0 cfgMfa).url = (("/mfa").data) ∧
    fullUrl httpsS hostS ((("/mfa").data)) = (("https://h/mfa").data) ∧
    (("/mfa").data) ≠ (("https://h/mfa").data) := by
  refine ⟨rfl, rfl, by decide⟩

/-- C6 amended: the leading-slash resolution rule is the one of `fullUrl`,
and is applied to the sign-in login POST target, the ADFS form action and
the KMSI POST target; the MFA-finalise POST (`processMfaAuth`) and the
hidden-form re-POST (`reProcessForm`) use their URL fragments unresolved. -/
theorem c6_resolution_amended :
    (∀ scheme host frag : Str, hasPref frag ((("/").data)) = true →
        fullUrl scheme host frag = scheme ++ (("://").data) ++ host ++ frag) ∧
    (∀ scheme host frag : Str, hasPref frag ((("/").data)) = false →
        fullUrl scheme host frag = frag) ∧
    (∀ (scheme host : Str) (cfg : ConvergedResponse),
        signinLoginRequestUrl scheme host cfg = fullUrl scheme host cfg.urlPost) ∧
    (∀ scheme host a : Str, adfsPostUrl scheme host a = fullUrl scheme host a) ∧
    (∀ (b scheme host : Str) (d : Except Unit Unit) (f0 : Bool)
        (cfg : ConvergedResponse) (post : IssuedPost),
        unmarshalEmbeddedJson b = GoRes.ok (some cfg) →
        (processKmsiInterrupt b scheme host d f0).issued = some post →
        post.url = fullUrl scheme host cfg.urlPost) ∧
    (∀ (m : mfaResponse) (cfg : ConvergedResponse),
        (processMfaAuth m cfg).url = cfg.urlPost) ∧
    (∀ (fv : List (Str × Str)) (u : Str) (post : IssuedPost),
        reProcessForm fv u = Except.ok post → post.url = u) := by
  refine ⟨?_, ?_, ?_, ?_, ?_, ?_, ?_⟩
  · intro scheme host frag h
    simp [fullUrl, h]
  · intro scheme host frag h
    simp [fullUrl, h]
  · intro scheme host cfg
    rfl
  · intro scheme host a
    rfl
  · intro b scheme host d f0 cfg post h1 h2
    unfold processKmsiInterrupt at h2
    rw [h1] at h2
    cases d with
    | error e =>
      simp only at h2
      injection h2 with h3
      rw [← h3]
    | ok v =>
      simp only at h2
      injection h2 with h3
      rw [← h3]
  · intro m cfg
    rfl
  · intro fv u post h
    unfold reProcessForm at h
    split at h
    · exact absurd h (by simp)
    · injection h with h2
      rw [← h2]

/-- C6 witness: the resolution rule at a concrete relative fragment. -/
theorem c6_resolution_amended_witness :
    fullUrl httpsS hostS ((("/x").data)) =
      httpsS ++ (("://").data) ++ hostS ++ (("/x").data) := by
  exact c6_resolution_amended.1 httpsS hostS ((("/x").data)) (by decide)

/-- C2 counterexample: on a ConvergedTFA body whose config has an empty
`urlSkipMfaRegistration` and an empty `arrUserProofs`, the outer loop never
terminates — the handler returns the unchanged response, which classifies
as TFA again — so it does not reach UNKNOWN, whatever the server would
answer. -/
theorem c2_tfa_empty_counterexample :
    ¬ LoopTerminates oracleFail harvestNone tfaLoopBody := by
  intro hterm
  obtain ⟨n, o, hrun⟩ := hterm
  have hstep := fun k =>
    tfa_noop_step oracleFail harvestNone tfaLoopBody tfaLoopCfg
      (by decide) (by decide) (by decide) (by decide) k
  rw [loopRun_noop oracleFail harvestNone tfaLoopBody hstep n 0] at hrun
  exact Option.noConfusion hrun

/-- C2 amended: if the TFA page's `url_skip_mfa_registration` is empty and
its `user_proofs` list is empty, the TFA handler performs no HTTP turn and
returns the unchanged response; the outer loop then re-classifies the same
body as TFA forever and never terminates (in particular it never reaches
UNKNOWN), for every sequence of server responses. -/
theorem c2_tfa_empty_loops_forever :
    ∀ (σ : Nat → HandlerRes) (hv : Str → Str) (b : Str) (cfg : ConvergedResponse),
      classify b = PageKind.tfa →
      unmarshalEmbeddedJson b = GoRes.ok (some cfg) →
      cfg.urlSkipMfaRegistration = [] →
      cfg.arrUserProofs = [] →
      (∀ k, authStep σ hv k b = StepRes.again k b) ∧
        ¬ LoopTerminates σ hv b := by
  intro σ hv b cfg h1 h2 h3 h4
  have hstep := fun k => tfa_noop_step σ hv b cfg h1 h2 h3 h4 k
  refine ⟨hstep, ?_⟩
  intro hterm
  obtain ⟨n, o, hrun⟩ := hterm
  rw [loopRun_noop σ hv b hstep n 0] at hrun
  exact Option.noConfusion hrun

/-- C2 witness: the amended statement at the concrete looping body. -/
theorem c2_tfa_empty_loops_forever_witness :
    (∀ k, authStep oracleFail harvestNone k tfaLoopBody =
        StepRes.again k tfaLoopBody) ∧
      ¬ LoopTerminates oracleFail harvestNone tfaLoopBody := by
  exact c2_tfa_empty_loops_forever oracleFail harvestNone tfaLoopBody tfaLoopCfg
    (by decide) (by decide) (by decide) (by decide)

/-- C9: page classification is the deterministic first-match-wins rule over
the order SIGNIN, PROOFUP_REDIRECT, KMSI, TFA, SAMLREQ, HIDDEN_FORM,
UNKNOWN (`classify` equals the spec's ordered-rule-list reading); a body
containing `ConvergedTFA` (and none of the three earlier markers)
classifies as TFA even when it also contains `SAMLRequest`; and
HIDDEN_FORM requires the `Working...` prefix together with the
`name="hiddenform"` marker. -/
theorem c9_classification :
    (∀ b : Str, classify b = classifySpecOrder b) ∧
    (∀ b : Str, containsS b (("ConvergedTFA").data) = true →
        containsS b (("ConvergedSignIn").data) = false →
        containsS b (("ConvergedProofUpRedirect").data) = false →
        containsS b (("KmsiInterrupt").data) = false →
        classify b = PageKind.tfa) ∧
    (∀ b : Str, classify b = PageKind.hiddenform →
        hasPref b (("<html><head><title>Working...</title>").data) = true ∧
        containsS b (("name=\"hiddenform\"").data) = true) := by
  refine ⟨?_, ?_, ?_⟩
  · intro b
    cases h1 : containsS b (("ConvergedSignIn").data) <;>
      cases h2 : containsS b (("ConvergedProofUpRedirect").data) <;>
        cases h3 : containsS b (("KmsiInterrupt").data) <;>
          cases h4 : containsS b (("ConvergedTFA").data) <;>
            cases h5 : containsS b (("SAMLRequest").data) <;>
              cases h6 : isHiddenForm b <;>
                simp [classify, classifySpecOrder, h1, h2, h3, h4, h5, h6,
                  List.find?]
  · intro b hT hS hP hK
    simp [classify, hT, hS, hP, hK]
  · intro b h
    unfold classify at h
    split_ifs at h with hs hp hk ht hsr hh
    all_goals
      first
        | exact absurd h (by decide)
        | simpa [isHiddenForm, Bool.and_eq_true] using hh

/-- C9 witness: a body with both `ConvergedTFA` and `SAMLRequest` is TFA,
and a concrete hidden-form body has the required prefix and marker. -/
theorem c9_classification_witness :
    classify c9TfaBody = PageKind.tfa ∧
    (hasPref c9HiddenBody (("<html><head><title>Working...</title>").data) = true ∧
      containsS c9HiddenBody (("name=\"hiddenform\"").data) = true) := by
  constructor
  · exact c9_classification.2.1 c9TfaBody (by decide) (by decide) (by decide)
      (by decide)
  · exact c9_classification.2.2 c9HiddenBody (by decide)

theorem pollRequests_get_zero (cur : mfaResponse) (rs : List mfaResponse)
    (tok pc : Str) :
    (pollRequests cur rs tok pc).get? 0 = some (buildEndAuthReq cur tok pc) := by
  cases rs
  · rfl
  · rfl

/-- C8: in the MFA poll loop, the first EndAuth request carries the triple
of the BeginAuth response, and the request of iteration `i+1` carries
exactly the (Ctx, FlowToken, SessionId) received in the EndAuth response of
iteration `i` — stale triples are never reused. -/
theorem c8_poll_token_threading :
    ∀ (cur : mfaResponse) (rs : List mfaResponse) (tok pc : Str),
      ((pollRequests cur rs tok pc).head?.map reqTriple = some (respTriple cur)) ∧
      (∀ (i : Nat) (r : mfaRequest),
        (pollRequests cur rs tok pc).get? (i + 1) = some r →
        ∃ resp, rs.get? i = some resp ∧ reqTriple r = respTriple resp) := by
  intro cur rs tok pc
  constructor
  · cases rs
    · simp [pollRequests, buildEndAuthReq_triple]
    · simp [pollRequests, buildEndAuthReq_triple]
  · induction rs generalizing cur with
    | nil =>
      intro i r h
      simp [pollRequests] at h
    | cons q rest ih =>
      intro i r h
      simp only [pollRequests] at h
      rw [List.get?_cons_succ] at h
      by_cases hq : q.errCode ≠ 0
      · rw [if_pos hq] at h
        simp at h
      · rw [if_neg hq] at h
        by_cases hsc : q.success = true
        · rw [if_pos hsc] at h
          simp at h
        · rw [if_neg hsc] at h
          by_cases hr : q.retry = false
          · rw [if_pos hr] at h
            simp at h
          · rw [if_neg hr] at h
            cases i with
            | zero =>
              rw [pollRequests_get_zero q rest tok pc] at h
              injection h with h2
              refine ⟨q, rfl, ?_⟩
              rw [← h2, buildEndAuthReq_triple]
            | succ j =>
              obtain ⟨resp, hresp, htrip⟩ := ih q j r h
              exact ⟨resp, by simpa using hresp, htrip⟩

/-- C8 witness: in a concrete two-request run, the second request's triple
is the triple of the first EndAuth response. -/
theorem c8_poll_token_threading_witness :
    ∃ resp, pollRs0.get? 0 = some resp ∧
      reqTriple pollReq1 = respTriple resp := by
  exact (c8_poll_token_threading beginResp0 pollRs0 [] []).2 0 pollReq1 (by decide)

/-- C3 counterexample: with the `$Config=` marker absent the extractor does
not fail — on a 9-byte body whose suffix from byte 7 is the JSON value
`\x7b\x7d` it decodes those unrelated bytes into an all-defaults config, and
on the empty body the Go slice `body[7:]` panics. -/
theorem c3_marker_absent_counterexample :
    unmarshalEmbeddedJson c3NoMarkerBody =
      GoRes.ok (some ({} : ConvergedResponse)) ∧
    unmarshalEmbeddedJson ([] : Str) = GoRes.crash := by
  exact ⟨rfl, rfl⟩

/-- C3 amended: when the marker is present the extractor fails on an
unparseable JSON prefix; when the marker is absent, `strings.Index` returns
`-1` so decoding starts at byte 7 — the extractor then panics on bodies
shorter than 7 bytes, and otherwise decodes the suffix from byte 7,
succeeding whenever those unrelated bytes happen to form a decodable JSON
value. -/
theorem c3_unmarshal_behaviour :
    (∀ (b : Str) (i : Nat), idxOf (("$Config=").data) b = some i →
        parseValue (b.drop (i + 8)) = none →
        unmarshalEmbeddedJson b = GoRes.fail) ∧
    (∀ b : Str, idxOf (("$Config=").data) b = none → 7 ≤ b.length →
        unmarshalEmbeddedJson b = jsonDecodeConverged (b.drop 7)) ∧
    (∀ b : Str, idxOf (("$Config=").data) b = none → b.length < 7 →
        unmarshalEmbeddedJson b = GoRes.crash) := by
  refine ⟨?_, ?_, ?_⟩
  · intro b i hidx hparse
    have hle : i + 8 ≤ b.length := by
      have h2 := idxOf_le (("$Config=").data) b i hidx
      have h3 : ((("$Config=").data) : Str).length = 8 := rfl
      omega
    simp only [unmarshalEmbeddedJson, goIndex, hidx]
    rw [show ((i : Int) + 8) = ((i + 8 : Nat) : Int) by push_cast; ring]
    rw [goSliceFrom_eq b (i + 8) hle]
    show jsonDecodeConverged (b.drop (i + 8)) = GoRes.fail
    unfold jsonDecodeConverged
    rw [hparse]
  · intro b hidx hlen
    simp only [unmarshalEmbeddedJson, goIndex, hidx]
    rw [show ((-1 : Int) + 8) = ((7 : Nat) : Int) by norm_num]
    rw [goSliceFrom_eq b 7 hlen]
  · intro b hidx hlen
    simp only [unmarshalEmbeddedJson, goIndex, hidx]
    rw [show ((-1 : Int) + 8) = ((7 : Nat) : Int) by norm_num]
    have hnone : goSliceFrom b ((7 : Nat) : Int) = none := by
      unfold goSliceFrom goSlice
      rw [if_neg]
      intro hc
      obtain ⟨-, h2, -⟩ := hc
      have h4 : (7 : Nat) ≤ b.length := by exact_mod_cast h2
      omega
    rw [hnone]

/-- C3 witness: marker present followed by unparseable JSON fails. -/
theorem c3_unmarshal_behaviour_witness :
    unmarshalEmbeddedJson c3BadJsonBody = GoRes.fail := by
  exact c3_unmarshal_behaviour.1 c3BadJsonBody 0 (by rfl) (by rfl)

/-- C4 counterexample: in a segment where a `"` precedes the first `'`
after `https://`, the code's extraction ends at the `'` (dragging the `"`
into the URL), not at the minimum of the two quote positions as the claim
states. -/
theorem c4_quote_order_counterexample :
    processSAMLRequest c4Body = GoRes.ok c4CodeUrl ∧
    extractSamlSegmentSpecMin c4Body = some c4MinUrl ∧
    c4CodeUrl ≠ c4MinUrl := by
  refine ⟨rfl, rfl, by decide⟩

/-- C4 amended: the extracted URL ends at the first `'` after `https://`
whenever a `'` occurs (even if a `"` occurs earlier); only when no `'`
occurs does it end at the first `"`. -/
theorem c4_quote_scan_rule :
    ∀ (v : Str) (s : Nat), idxOf (("https://").data) v = some s →
      (∀ i : Nat, idxOf [squote] (v.drop s) = some i →
        extractSamlSegment v = GoRes.ok ((v.drop s).take i)) ∧
      (idxOf [squote] (v.drop s) = none →
        ∀ j : Nat, idxOf [dquote] (v.drop s) = some j →
          extractSamlSegment v = GoRes.ok ((v.drop s).take j)) := by
  intro v s hs
  have hlen8 : ((("https://").data) : Str).length = 8 := rfl
  have hsle : s + 8 ≤ v.length := by
    have h2 := idxOf_le (("https://").data) v s hs
    omega
  have hle2 : s ≤ v.length := by omega
  constructor
  · intro i hi
    have hone : ([squote] : Str).length = 1 := rfl
    have hiv : s + i < v.length := by
      have h3 := idxOf_le [squote] (v.drop s) i hi
      rw [List.length_drop] at h3
      omega
    simp only [extractSamlSegment, goIndex, hs, goSliceFrom_eq v s hle2, hi]
    rw [if_neg (by omega : ¬((i : Int) = -1))]
    rw [show ((s : Int) + (i : Int)) = (((s + i : Nat)) : Int) by push_cast; ring]
    rw [goSlice_eq v s (s + i) (by omega) (by omega)]
    show GoRes.ok ((v.drop s).take (s + i - s)) = GoRes.ok ((v.drop s).take i)
    rw [Nat.add_sub_cancel_left]
  · intro hnone j hj
    have hone : ([dquote] : Str).length = 1 := rfl
    have hjv : s + j < v.length := by
      have h3 := idxOf_le [dquote] (v.drop s) j hj
      rw [List.length_drop] at h3
      omega
    simp only [extractSamlSegment, goIndex, hs, goSliceFrom_eq v s hle2, hnone, hj]
    rw [if_pos trivial]
    rw [show ((s : Int) + (j : Int)) = (((s + j : Nat)) : Int) by push_cast; ring]
    rw [goSlice_eq v s (s + j) (by omega) (by omega)]
    show GoRes.ok ((v.drop s).take (s + j - s)) = GoRes.ok ((v.drop s).take j)
    rw [Nat.add_sub_cancel_left]

/-- C4 witness: the amended rule evaluated on the counterexample segment —
the `'` at tail offset 13 wins although the `"` sits at offset 11. -/
theorem c4_quote_scan_rule_witness :
    extractSamlSegment c4Body = GoRes.ok ((c4Body.drop 12).take 13) := by
  exact (c4_quote_scan_rule c4Body 12 (by rfl)).1 13 (by rfl)
